import Mathlib

/-!
Formal model of the pico-climate firmware metrics core (src/lib.rs,
src/prometheus/*, src/ina237.rs, src/sht30.rs, src/http.rs).

Modelling conventions:
* `f32` sensor values are modelled as exact rationals (`F := ℚ`).  The
  properties under study are order/accumulator properties, not rounding
  behaviour; `f32::total_cmp` restricted to ordinary numbers is the rational
  order, and `f32::INFINITY` bucket bounds are modelled by `FBound.inf`.
  NaN payloads never arise in the modelled code paths.
* Rust code that can panic (out-of-bounds indexing) is modelled with `Option`:
  `none` stands for the panic.
* Mutating methods become state-passing functions; a method that both returns
  a value and mutates (`AverageSet::avg`) returns a pair.
* Fixed-size arrays `[T; N]` become lists; every state reachable from the
  `new` constructors keeps the length `N`, which is all the code relies on.
-/

namespace PicoClimate

/-- Rational stand-in for `f32` sample values. -/
abbrev F := ℚ

/-- `AverageSet` from src/lib.rs: running sum/count accumulator. -/
structure AverageSet where
  sum : F
  count : ℕ
deriving DecidableEq

/-- `AverageSet::new` (src/lib.rs:30). -/
def AverageSet.new : AverageSet :=
  { sum := 0, count := 0 }

/-- `AverageSet::record` (src/lib.rs:34): adds the sample to `sum` and bumps `count`. -/
def AverageSet.record (s : AverageSet) (sample : F) : AverageSet :=
  { s with sum := s.sum + sample, count := s.count + 1 }

/-- `AverageSet::avg` (src/lib.rs:39): returns 0 when `count` is 0, otherwise
returns `sum / count` and resets the accumulator.  The returned pair is
(returned value, state after the call). -/
def AverageSet.avg (s : AverageSet) : F × AverageSet :=
  if s.count = 0 then (0, s)
  else (s.sum / (s.count : F), { sum := 0, count := 0 })

/-- Folding a whole sequence of `record` calls from a fresh `AverageSet`. -/
def AverageSet.recordSeq (vs : List F) : AverageSet :=
  vs.foldl AverageSet.record AverageSet.new

/-- `SampleSet<N>` from src/lib.rs: ring buffer of the last `N` samples. -/
structure SampleSet (N : ℕ) where
  samples : List F
  count : ℕ
deriving DecidableEq

/-- `SampleSet::new` (src/lib.rs:57): zero-filled buffer, zero write count. -/
def SampleSet.new (N : ℕ) : SampleSet N :=
  { samples := List.replicate N 0, count := 0 }

/-- `SampleSet::record` (src/lib.rs:64): overwrites slot `count % N` and bumps
`count`.  (Rust panics for `N = 0`; the theorems below assume `0 < N`.) -/
def SampleSet.record {N : ℕ} (s : SampleSet N) (sample : F) : SampleSet N :=
  { s with samples := s.samples.set (s.count % N) sample, count := s.count + 1 }

/-- `SampleSet::sample_count` (src/lib.rs:82): number of live entries. -/
def SampleSet.sampleCount {N : ℕ} (s : SampleSet N) : ℕ :=
  if s.count > N then N else s.count

/-- `SampleSet::median` (src/lib.rs:69): copies the live entries, sorts them
ascending (`total_cmp`), and indexes the sorted copy at `len / 2`.  The Rust
indexing `samples[samples.len() / 2]` panics when no sample is live; the model
returns `none` in that case. -/
def SampleSet.median {N : ℕ} (s : SampleSet N) : Option F :=
  let sorted := List.insertionSort (fun a b => a ≤ b) (s.samples.take s.sampleCount)
  sorted.get? (sorted.length / 2)

/-- Folding a whole sequence of `record` calls from a fresh `SampleSet`. -/
def SampleSet.recordSeq (N : ℕ) (vs : List F) : SampleSet N :=
  vs.foldl SampleSet.record (SampleSet.new N)

/-- An `f32` histogram bucket bound: a finite value or `f32::INFINITY`. -/
inductive FBound
  | fin (value : F)
  | inf
deriving DecidableEq

/-- The Rust comparison `value <= bucket.le` (`f32::INFINITY` dominates). -/
def FBound.covers (b : FBound) (value : F) : Bool :=
  match b with
  | FBound.inf => true
  | FBound.fin q => decide (value ≤ q)

/-- `Bucket` from src/prometheus/mod.rs:54 (also src/prometheus.rs:37). -/
structure Bucket where
  le : FBound
  count : ℕ
deriving DecidableEq

/-- `HistogramSamples` from src/prometheus/mod.rs:59: labelled cumulative
histogram with running sum and count. -/
structure HistogramSamples where
  label_values : List String
  buckets : List Bucket
  sum : F
  count : ℕ
deriving DecidableEq

/-- `HistogramSamples::new` (src/prometheus/mod.rs:67). -/
def HistogramSamples.new (label_values : List String) (limits : List FBound) :
    HistogramSamples :=
  { label_values := label_values
    buckets := limits.map (fun l => { le := l, count := 0 })
    sum := 0
    count := 0 }

/-- `HistogramSamples::sample` (src/prometheus/mod.rs:86): bumps `count`,
adds the value to `sum`, and increments every bucket with `value <= le`. -/
def HistogramSamples.sample (h : HistogramSamples) (value : F) : HistogramSamples :=
  { h with
    count := h.count + 1
    sum := h.sum + value
    buckets := h.buckets.map
      (fun b => if b.le.covers value then { b with count := b.count + 1 } else b) }

/-- `Histogram<SIZE>` from src/prometheus.rs:42 (label-free historical twin of
`HistogramSamples`). -/
structure Histogram where
  buckets : List Bucket
  sum : F
  count : ℕ
deriving DecidableEq

/-- `Histogram::sample` (src/prometheus.rs:67): identical bucket logic. -/
def Histogram.sample (h : Histogram) (value : F) : Histogram :=
  { h with
    count := h.count + 1
    sum := h.sum + value
    buckets := h.buckets.map
      (fun b => if b.le.covers value then { b with count := b.count + 1 } else b) }

end PicoClimate

namespace PicoClimate

/-!  Text exposition model (src/prometheus/mod.rs and friends).  Lines are
modelled as the strings successively produced by the chunk writer; numeric
formatting of a value is abstracted by `fmtVal` (the Rust code uses the
platform `Display` for `f32`; no claim under study depends on the digits). -/

/-- Stand-in for the Rust `Display` formatting of an `f32` value. -/
def fmtVal (v : F) : String :=
  toString v.num ++ "/" ++ toString v.den

/-- `ChunkWriter::write_value` (src/prometheus/mod.rs:151): a space, the value,
and a newline. -/
def valueText (v : F) : String :=
  " " ++ fmtVal v ++ "\n"

/-- The `le` label text from `BucketMetricLineWriter::write_metric_line`
(src/prometheus/histogram_family.rs:115): the literal `+Inf` for the infinite
bound, otherwise the formatted bound. -/
def leText (b : FBound) : String :=
  match b with
  | FBound.inf => "+Inf"
  | FBound.fin q => fmtVal q

/-- `ChunkWriter::write_labels` (src/prometheus/mod.rs:136): an opening brace,
comma-separated `name="value"` pairs, and a closing brace.  The braces are
written unconditionally, also for an empty label list. -/
def writeLabels (ps : List (String × String)) : String :=
  "\x7b" ++ String.intercalate "," (ps.map (fun p => p.1 ++ "=\"" ++ p.2 ++ "\"")) ++ "\x7d"

/-- `MetricComments::write_chunks` (src/prometheus/metric_comments.rs:16):
the `# HELP` and `# TYPE` lines. -/
def commentLines (name help typeStr : String) : List String :=
  ["# HELP " ++ name ++ " " ++ help ++ "\n", "# TYPE " ++ name ++ " " ++ typeStr ++ "\n"]

/-- `SimpleMetricLineWriter::write_metric_line` (src/prometheus/metric_family.rs:51):
name, label block, value. -/
def simpleMetricLine (name : String) (ps : List (String × String)) (v : F) : String :=
  name ++ writeLabels ps ++ valueText v

/-- `SummaryMetricLineWriter::write_metric_line` (src/prometheus/histogram_family.rs:151):
name, suffix (`_sum` / `_count`), label block, value. -/
def summaryMetricLine (name nameSuffix : String) (ps : List (String × String)) (v : F) :
    String :=
  name ++ nameSuffix ++ writeLabels ps ++ valueText v

/-- `BucketMetricLineWriter::write_metric_line` (src/prometheus/histogram_family.rs:110):
name, `_bucket`, label block extended with the `le` label, bucket count. -/
def bucketMetricLine (name : String) (ps : List (String × String)) (b : Bucket) : String :=
  name ++ "_bucket" ++ writeLabels (ps ++ [("le", leText b.le)]) ++ valueText (b.count : F)

/-- `Sample` from src/prometheus/sample.rs. -/
structure Sample where
  label_values : List String
  value : F
deriving DecidableEq

/-- `MetricFamily::write_chunks` (src/prometheus/metric_family.rs:67): the two
comment lines, then one `SimpleMetricLineWriter` line per sample, labels
zipped positionally with the family label names.  (The per-sample dispatch
lives in `MetricSamples::write_chunks`; the copy of metric_samples.rs in the
tree is an older inline variant that builds the identical line text, braces
always included.) -/
def metricFamilyLines (name help typeStr : String) (labels : List String)
    (samples : List Sample) : List String :=
  commentLines name help typeStr ++
    samples.map (fun s => simpleMetricLine name (labels.zip s.label_values) s.value)

/-- One sample block of `HistogramFamily::write_chunks`
(src/prometheus/histogram_family.rs:46): a sample with `count == 0` is skipped
(`continue`); otherwise the `_count` line, then the `_sum` line, then one
`_bucket` line per bucket in stored order. -/
def histogramSampleLines (name : String) (labels : List String) (s : HistogramSamples) :
    List String :=
  if s.count = 0 then []
  else
    summaryMetricLine name "_count" (labels.zip s.label_values) (s.count : F) ::
      summaryMetricLine name "_sum" (labels.zip s.label_values) s.sum ::
      s.buckets.map (fun b => bucketMetricLine name (labels.zip s.label_values) b)

/-- `HistogramFamily::write_chunks` (src/prometheus/histogram_family.rs:46):
comment lines then the per-sample blocks. -/
def histogramFamilyLines (name help : String) (labels : List String)
    (samples : List HistogramSamples) : List String :=
  commentLines name help "histogram" ++ samples.flatMap (histogramSampleLines name labels)

/-- Spec-side definition for claim C2, following the claim words: per label
combination, the `_bucket` lines first (in bound order), then `_sum`, then
`_count`.  Written only to be compared with `histogramSampleLines`. -/
def histogramSampleLinesClaimOrder (name : String) (labels : List String)
    (s : HistogramSamples) : List String :=
  if s.count = 0 then []
  else
    s.buckets.map (fun b => bucketMetricLine name (labels.zip s.label_values) b) ++
      [summaryMetricLine name "_sum" (labels.zip s.label_values) s.sum,
       summaryMetricLine name "_count" (labels.zip s.label_values) (s.count : F)]

/-- Spec-side definition for claim C2 at family level. -/
def histogramFamilyLinesClaimOrder (name help : String) (labels : List String)
    (samples : List HistogramSamples) : List String :=
  commentLines name help "histogram" ++
    samples.flatMap (histogramSampleLinesClaimOrder name labels)

/-- Spec-side definition for claim C6, following the claim words: with zero
label dimensions a sample line omits the label block entirely, braces
included. -/
def zeroLabelSampleLineClaim (name : String) (v : F) : String :=
  name ++ " " ++ fmtVal v ++ "\n"

end PicoClimate

namespace PicoClimate.Ina237

/-- `Output` from src/ina237.rs:125. -/
structure Output where
  bus_voltage : F
  shunt_voltage : F
  current : F
  successes : F
  timeouts : F
  zeros : F
  recoverable_errors : F
  resets : F
deriving DecidableEq

/-- `SharedState` from src/ina237.rs:136. -/
structure SharedState where
  bus_voltages : SampleSet 11
  shunt_voltages : SampleSet 11
  currents : AverageSet
  successes : F
  timeouts : F
  zeros : F
  recoverable_errors : F
  resets : F
deriving DecidableEq

/-- `SharedState::new` (src/ina237.rs:148). -/
def SharedState.new : SharedState :=
  { bus_voltages := SampleSet.new 11
    shunt_voltages := SampleSet.new 11
    currents := AverageSet.new
    successes := 0
    timeouts := 0
    zeros := 0
    recoverable_errors := 0
    resets := 0 }

/-- `SharedState::record_bus_voltage` (src/ina237.rs:161): a reading below
10 V only bumps `zeros` (the sample is discarded), otherwise the reading is
recorded into the bus-voltage `SampleSet`. -/
def SharedState.record_bus_voltage (st : SharedState) (v : F) : SharedState :=
  if v < 10 then { st with zeros := st.zeros + 1 }
  else { st with bus_voltages := st.bus_voltages.record v }

/-- `SharedState::record_current` (src/ina237.rs:170). -/
def SharedState.record_current (st : SharedState) (v : F) : SharedState :=
  { st with currents := st.currents.record v }

/-- `SharedState::record_shunt_voltage` (src/ina237.rs:174). -/
def SharedState.record_shunt_voltage (st : SharedState) (v : F) : SharedState :=
  { st with shunt_voltages := st.shunt_voltages.record v }

/-- `SharedState::record_timeout` (src/ina237.rs:189). -/
def SharedState.record_timeout (st : SharedState) : SharedState :=
  { st with timeouts := st.timeouts + 1 }

/-- `SharedState::record_reset` (src/ina237.rs:193). -/
def SharedState.record_reset (st : SharedState) : SharedState :=
  { st with resets := st.resets + 1 }

/-- `SharedState::snapshot` (src/ina237.rs:197): medians of the two sample
sets, destructive average of the currents, and copies of the counters.  The
`median()` calls panic when a set is empty (modelled by `none`); `avg` resets
the current accumulator, so the state after the call differs only there. -/
def SharedState.snapshot (st : SharedState) : Option (Output × SharedState) :=
  match st.bus_voltages.median, st.shunt_voltages.median with
  | some bv, some sv =>
      some
        ({ bus_voltage := bv
           shunt_voltage := sv
           current := (st.currents.avg).1
           successes := st.successes
           timeouts := st.timeouts
           zeros := st.zeros
           recoverable_errors := st.recoverable_errors
           resets := st.resets },
         { st with currents := (st.currents.avg).2 })
  | _, _ => none

end PicoClimate.Ina237

namespace PicoClimate.Sht30

/-- `Reading` from src/sht30.rs:128. -/
structure Reading where
  temperature : F
  humidity : F
  heater_status : Bool
  humidity_tracking_alert : Bool
  temperature_tracking_alert : Bool
  command_status_success : Bool
  write_data_checksum_status : Bool
deriving DecidableEq

/-- `SharedState` from src/sht30.rs:28. -/
structure SharedState where
  temperatures : SampleSet 11
  humidities : SampleSet 11
  successes : F
  timeouts : F
  zeros : F
  recoverable_errors : F
  resets : F
  heater_status_count : F
  humidity_tracking_alert_count : F
  temperature_tracking_alert_count : F
  command_status_success_count : F
  write_data_checksum_status_count : F
deriving DecidableEq

/-- `SharedState::new` (src/sht30.rs:44). -/
def SharedState.new : SharedState :=
  { temperatures := SampleSet.new 11
    humidities := SampleSet.new 11
    successes := 0
    timeouts := 0
    zeros := 0
    recoverable_errors := 0
    resets := 0
    heater_status_count := 0
    humidity_tracking_alert_count := 0
    temperature_tracking_alert_count := 0
    command_status_success_count := 0
    write_data_checksum_status_count := 0 }

/-- `SharedState::record` (src/sht30.rs:61): bumps `successes`, records the
humidity and temperature into their `SampleSet`s unconditionally, bumps
`zeros` when either reading is zero, and bumps the status counters for the
set status flags. -/
def SharedState.record (st : SharedState) (reading : Reading) : SharedState :=
  { st with
    successes := st.successes + 1
    humidities := st.humidities.record reading.humidity
    temperatures := st.temperatures.record reading.temperature
    zeros :=
      if reading.humidity = 0 ∨ reading.temperature = 0 then st.zeros + 1 else st.zeros
    heater_status_count :=
      if reading.heater_status then st.heater_status_count + 1 else st.heater_status_count
    humidity_tracking_alert_count :=
      if reading.humidity_tracking_alert then st.humidity_tracking_alert_count + 1
      else st.humidity_tracking_alert_count
    temperature_tracking_alert_count :=
      if reading.temperature_tracking_alert then st.temperature_tracking_alert_count + 1
      else st.temperature_tracking_alert_count
    command_status_success_count :=
      if reading.command_status_success then st.command_status_success_count + 1
      else st.command_status_success_count
    write_data_checksum_status_count :=
      if reading.write_data_checksum_status then st.write_data_checksum_status_count + 1
      else st.write_data_checksum_status_count }

/-- `SharedState::record_error` (src/sht30.rs:86). -/
def SharedState.record_error (st : SharedState) : SharedState :=
  { st with recoverable_errors := st.recoverable_errors + 1 }

end PicoClimate.Sht30

namespace PicoClimate.Http

/-- Events of the metrics handler, for the lock-scope model of
`PicoClimateMetrics::write_chunks` (src/http.rs:32). -/
inductive HandlerEvent
  | lockState
  | writeFamily (name : String)
  | unlockState
deriving DecidableEq

/-- Control-flow trace of `PicoClimateMetrics::write_chunks` (src/http.rs:32-181):
the handler locks `app_state.state` at the top of the method (line 40) and the
guard lives until the method returns, so every family write happens between
the lock and the unlock.  The booleans select the runtime branches: whether
the ADC read succeeds, whether the SHT30 read succeeds, whether the INA237 is
present, and whether its read succeeds. -/
def picoClimateTrace (adcOk sht30Ok hasIna inaOk : Bool) : List HandlerEvent :=
  HandlerEvent.lockState ::
    (HandlerEvent.writeFamily "http_request_count" ::
      HandlerEvent.writeFamily "wifi_signal_strength" ::
        ((if adcOk then [HandlerEvent.writeFamily "adc_temp_sensor"] else []) ++
          (if sht30Ok then
            [HandlerEvent.writeFamily "sht30_reading", HandlerEvent.writeFamily "sht30_status"]
          else []) ++
          [HandlerEvent.writeFamily "sht30_error"] ++
          (if hasIna then
            (if inaOk then [HandlerEvent.writeFamily "ina237_reading"] else []) ++
              [HandlerEvent.writeFamily "ina237_errors"]
          else []) ++
          [HandlerEvent.unlockState]))

/-- Checks that every family write in the trace happens at lock depth zero,
i.e. outside any critical section: the formalisation of the claim that the
mutex is held only for the snapshot and not across the render. -/
def writesOutsideLock : List HandlerEvent → ℕ → Bool
  | [], _ => true
  | HandlerEvent.lockState :: rest, d => writesOutsideLock rest (d + 1)
  | HandlerEvent.unlockState :: rest, d => writesOutsideLock rest (d - 1)
  | HandlerEvent.writeFamily _ :: rest, d => decide (d = 0) && writesOutsideLock rest d

/-- Checks that every family write in the trace happens at positive lock
depth, i.e. with the state mutex held. -/
def writesUnderLock : List HandlerEvent → ℕ → Bool
  | [], _ => true
  | HandlerEvent.lockState :: rest, d => writesUnderLock rest (d + 1)
  | HandlerEvent.unlockState :: rest, d => writesUnderLock rest (d - 1)
  | HandlerEvent.writeFamily _ :: rest, d => decide (0 < d) && writesUnderLock rest d

end PicoClimate.Http

namespace PicoClimate

/-!  Concrete fixtures used by witnesses and counterexamples. -/

/-- A Wi-Fi signal histogram as constructed in src/http.rs:218 (bounds
10,20,...,100,+Inf). -/
def exHistogram : HistogramSamples :=
  HistogramSamples.new ["net", "6", "rssi"]
    [FBound.fin 10, FBound.fin 20, FBound.fin 30, FBound.fin 40, FBound.fin 50,
     FBound.fin 60, FBound.fin 70, FBound.fin 80, FBound.fin 90, FBound.fin 100,
     FBound.inf]

/-- A small observed histogram sample used to exhibit the render order. -/
def exHistSmall : HistogramSamples :=
  { label_values := ["a"]
    buckets := [{ le := FBound.fin 10, count := 1 }, { le := FBound.inf, count := 1 }]
    sum := 5
    count := 1 }

/-- An SHT30 reading whose humidity is zero (temperature nonzero). -/
def exZeroReading : Sht30.Reading :=
  { temperature := 21
    humidity := 0
    heater_status := false
    humidity_tracking_alert := false
    temperature_tracking_alert := false
    command_status_success := false
    write_data_checksum_status := false }

/-- An INA237 state with one bus-voltage, one shunt-voltage and one current
sample recorded. -/
def exInaState : Ina237.SharedState :=
  ((Ina237.SharedState.new.record_bus_voltage 12).record_shunt_voltage 3).record_current 2

end PicoClimate

namespace PicoClimate

/-!  Helper lemmas. -/

/-- Folding `AverageSet.record` accumulates the sum and the count. -/
theorem AverageSet.foldl_record (a : AverageSet) (vs : List F) :
    (vs.foldl AverageSet.record a).sum = a.sum + vs.sum ∧
      (vs.foldl AverageSet.record a).count = a.count + vs.length := by
  induction vs generalizing a with
  | nil => simp
  | cons v t ih =>
    obtain ⟨h1, h2⟩ := ih (a.record v)
    refine ⟨?_, ?_⟩
    · rw [List.foldl_cons, h1]
      simp [AverageSet.record]
      ring
    · rw [List.foldl_cons, h2]
      simp [AverageSet.record]
      omega

/-- A second `avg` call right after an `avg` call returns 0. -/
theorem AverageSet.avg_after_avg (a : AverageSet) : (((a.avg).2).avg).1 = 0 := by
  by_cases h : a.count = 0
  · simp [AverageSet.avg, h]
  · simp [AverageSet.avg, h]

end PicoClimate

namespace PicoClimate

/-- C3: the spec states that `median()` returns 0.0 when no samples have been
recorded; in the code (src/lib.rs:69-80) the live subset is then empty and
`samples[samples.len() / 2]` indexes an empty vector, which panics.  The model
therefore yields `none`, not `some 0`. -/
theorem sampleSet_median_unrecorded :
    (SampleSet.new 11).median = none ∧ (SampleSet.new 11).median ≠ some 0 := by
  constructor <;> decide

/-- C4: `avg()` on an `AverageSet` holding a recorded sequence returns the sum
of the recorded values divided by their count (0 when nothing was recorded),
resets the accumulator to sum 0 / count 0, and an immediate second `avg()`
call returns 0. -/
theorem averageSet_avg_resets (vs : List F) :
    ((AverageSet.recordSeq vs).avg).1 =
        (if vs.length = 0 then 0 else vs.sum / (vs.length : F)) ∧
      ((AverageSet.recordSeq vs).avg).2.sum = 0 ∧
      ((AverageSet.recordSeq vs).avg).2.count = 0 ∧
      ((((AverageSet.recordSeq vs).avg).2).avg).1 = 0 := by
  obtain ⟨hsum, hcount⟩ := AverageSet.foldl_record AverageSet.new vs
  have hs : (AverageSet.recordSeq vs).sum = vs.sum := by
    simpa [AverageSet.recordSeq, AverageSet.new] using hsum
  have hc : (AverageSet.recordSeq vs).count = vs.length := by
    simpa [AverageSet.recordSeq, AverageSet.new] using hcount
  by_cases h : vs.length = 0
  · have hnil : vs = [] := List.length_eq_zero.mp h
    subst hnil
    refine ⟨by simp [AverageSet.recordSeq, AverageSet.avg, AverageSet.new], ?_, ?_, ?_⟩ <;>
      simp [AverageSet.recordSeq, AverageSet.avg, AverageSet.new]
  · refine ⟨?_, ?_, ?_, ?_⟩ <;>
      simp [AverageSet.avg, hs, hc, h, AverageSet.avg_after_avg]

/-- C5: `HistogramSamples::sample(v)` increments `count` by one, adds `v` to
`sum`, increments exactly the buckets whose bound is `>= v` (the infinite
bound included) and leaves the buckets with bound `< v` unchanged; the
historical `Histogram::sample` in src/prometheus.rs does the same. -/
theorem histogramSamples_sample_cumulative (h : HistogramSamples) (v : F) :
    (h.sample v).count = h.count + 1 ∧
      (h.sample v).sum = h.sum + v ∧
      (∀ i b, h.buckets.get? i = some b →
        (h.sample v).buckets.get? i =
          some (if b.le.covers v then { b with count := b.count + 1 } else b)) ∧
      (Histogram.sample { buckets := h.buckets, sum := h.sum, count := h.count } v).buckets =
        (h.sample v).buckets := by
  refine ⟨rfl, rfl, ?_, rfl⟩
  intro i b hib
  simp only [HistogramSamples.sample, List.get?_map, hib]
  rfl

/-- Witness for C5, instantiating the claim example: bounds 10,20,...,100,+Inf
and sampled value 15; the 10 bucket stays at 0, the 20 bucket becomes 1. -/
theorem histogramSamples_sample_cumulative_witness :
    exHistogram.buckets.get? 0 = some { le := FBound.fin 10, count := 0 } ∧
      (exHistogram.sample 15).buckets.get? 0 = some { le := FBound.fin 10, count := 0 } ∧
      (exHistogram.sample 15).buckets.get? 1 = some { le := FBound.fin 20, count := 1 } ∧
      (exHistogram.sample 15).buckets.get? 10 = some { le := FBound.inf, count := 1 } := by
  have h0 := (histogramSamples_sample_cumulative exHistogram 15).2.2.1 0
    { le := FBound.fin 10, count := 0 } (by decide)
  have h1 := (histogramSamples_sample_cumulative exHistogram 15).2.2.1 1
    { le := FBound.fin 20, count := 0 } (by decide)
  have h10 := (histogramSamples_sample_cumulative exHistogram 15).2.2.1 10
    { le := FBound.inf, count := 0 } (by decide)
  refine ⟨by decide, ?_, ?_, ?_⟩
  · rw [h0]; decide
  · rw [h1]; decide
  · rw [h10]; decide

end PicoClimate

namespace PicoClimate

/-- A flatMap over blocks that are all empty is empty. -/
theorem flatMap_eq_nil_of_forall {α β : Type} (f : α → List β) (l : List α)
    (h : ∀ x ∈ l, f x = []) : l.flatMap f = [] := by
  induction l with
  | nil => rfl
  | cons x t ih =>
    rw [List.flatMap_cons, h x (by simp), List.nil_append]
    exact ih (fun y hy => h y (List.mem_cons_of_mem _ hy))

/-- C7: a histogram-family label combination whose total count is 0 is skipped
entirely on render: the rendered lines equal those of the family restricted to
the nonzero-count samples, and when every count is 0 only the `# HELP` and
`# TYPE` comment lines are emitted. -/
theorem histogram_zero_count_skipped (name help : String) (labels : List String)
    (samples : List HistogramSamples) :
    histogramFamilyLines name help labels samples =
        histogramFamilyLines name help labels (samples.filter (fun s => s.count != 0)) ∧
      ((∀ s ∈ samples, s.count = 0) →
        histogramFamilyLines name help labels samples = commentLines name help "histogram") := by
  constructor
  · unfold histogramFamilyLines
    congr 1
    induction samples with
    | nil => rfl
    | cons s t ih =>
      by_cases h : s.count = 0
      · simp [List.flatMap_cons, List.filter_cons, h, histogramSampleLines, ih]
      · simp [List.flatMap_cons, List.filter_cons, h, ih]
  · intro hz
    unfold histogramFamilyLines
    rw [flatMap_eq_nil_of_forall _ _
      (fun s hs => by simp [histogramSampleLines, hz s hs]), List.append_nil]

/-- Witness for C7 at a concrete unobserved Wi-Fi channel histogram. -/
theorem histogram_zero_count_skipped_witness :
    (∀ s ∈ [exHistogram], s.count = 0) ∧
      histogramFamilyLines "wifi_signal_strength" "Wifi signal strength"
          ["ssid", "channel", "metric"] [exHistogram] =
        commentLines "wifi_signal_strength" "Wifi signal strength" "histogram" :=
  ⟨by decide,
    (histogram_zero_count_skipped "wifi_signal_strength" "Wifi signal strength"
      ["ssid", "channel", "metric"] [exHistogram]).2 (by decide)⟩

/-- C2 counterexample: at a concrete observed histogram the render order the
claim states (buckets, then `_sum`, then `_count`) differs from what the code
emits (`_count`, then `_sum`, then buckets). -/
theorem histogram_render_order_counterexample :
    histogramFamilyLinesClaimOrder "m" "h" ["l"] [exHistSmall] ≠
      histogramFamilyLines "m" "h" ["l"] [exHistSmall] := by
  decide

/-- C2 amended: for every histogram family and every label combination with
nonzero count, the rendered lines contain, as a contiguous block, the `_count`
line, then the `_sum` line, then one `_bucket` line per bucket in stored
(construction) order; the infinite bound renders its `le` label as the literal
`+Inf`. -/
theorem histogram_render_order_amended (name help : String) (labels : List String)
    (samples : List HistogramSamples) (s : HistogramSamples)
    (hs : s ∈ samples) (hc : s.count ≠ 0) :
    (∃ pre suf : List String,
        histogramFamilyLines name help labels samples =
          pre ++
            (summaryMetricLine name "_count" (labels.zip s.label_values) (s.count : F) ::
              summaryMetricLine name "_sum" (labels.zip s.label_values) s.sum ::
              s.buckets.map (fun b => bucketMetricLine name (labels.zip s.label_values) b)) ++
            suf) ∧
      ∀ b : Bucket, b.le = FBound.inf →
        bucketMetricLine name (labels.zip s.label_values) b =
          name ++ "_bucket" ++
            writeLabels ((labels.zip s.label_values) ++ [("le", "+Inf")]) ++
            valueText (b.count : F) := by
  constructor
  · obtain ⟨l1, l2, rfl⟩ := List.append_of_mem hs
    refine ⟨commentLines name help "histogram" ++ l1.flatMap (histogramSampleLines name labels),
      l2.flatMap (histogramSampleLines name labels), ?_⟩
    unfold histogramFamilyLines
    rw [List.flatMap_append, List.flatMap_cons]
    rw [show histogramSampleLines name labels s =
      summaryMetricLine name "_count" (labels.zip s.label_values) (s.count : F) ::
        summaryMetricLine name "_sum" (labels.zip s.label_values) s.sum ::
        s.buckets.map (fun b => bucketMetricLine name (labels.zip s.label_values) b) by
        rw [histogramSampleLines, if_neg hc]]
    simp [List.append_assoc]
  · intro b hb
    rw [bucketMetricLine, hb]
    rfl

/-- Witness for C2 amended, at the concrete observed histogram. -/
theorem histogram_render_order_amended_witness :
    exHistSmall ∈ [exHistSmall] ∧ exHistSmall.count ≠ 0 ∧
      (∃ pre suf : List String,
          histogramFamilyLines "m" "h" ["l"] [exHistSmall] =
            pre ++
              (summaryMetricLine "m" "_count" (["l"].zip exHistSmall.label_values)
                  (exHistSmall.count : F) ::
                summaryMetricLine "m" "_sum" (["l"].zip exHistSmall.label_values)
                  exHistSmall.sum ::
                exHistSmall.buckets.map
                  (fun b => bucketMetricLine "m" (["l"].zip exHistSmall.label_values) b)) ++
              suf) :=
  ⟨by decide, by decide,
    (histogram_render_order_amended "m" "h" ["l"] [exHistSmall] exHistSmall
      (by decide) (by decide)).1⟩

/-- C6 counterexample: a zero-label family (the `http_request_count` counter)
renders its sample line with an empty brace pair present, not with the
braces omitted as the claim states. -/
theorem zero_label_braces_counterexample :
    (metricFamilyLines "http_request_count" "hr" "counter" []
          [{ label_values := [], value := 5 }] ≠
        ["# HELP http_request_count hr\n", "# TYPE http_request_count counter\n",
          zeroLabelSampleLineClaim "http_request_count" 5]) ∧
      metricFamilyLines "http_request_count" "hr" "counter" []
          [{ label_values := [], value := 5 }] =
        ["# HELP http_request_count hr\n", "# TYPE http_request_count counter\n",
          "http_request_count\x7b\x7d " ++ fmtVal 5 ++ "\n"] := by
  constructor <;> decide

/-- C6 amended: for a family with zero label dimensions every rendered sample
line still carries the braces: it has the form `<name>` + empty label block +
`<numeric>` line ending, produced by the unconditional brace writes in
`ChunkWriter::write_labels`. -/
theorem zero_label_braces_amended (name help typeStr : String) (samples : List Sample) :
    metricFamilyLines name help typeStr [] samples =
      commentLines name help typeStr ++
        samples.map (fun s => name ++ "\x7b\x7d" ++ valueText s.value) := by
  rfl

end PicoClimate

namespace PicoClimate

/-- C8 counterexample: the SHT30 `record` (src/sht30.rs:61) receives a reading
with zero humidity; the `zeros` counter is bumped, but the reading is still
recorded into the humidity `SampleSet` (its write count changes), contrary to
the claim that the suspect value is excluded from the `SampleSet`. -/
theorem sht30_zero_reading_recorded_counterexample :
    (Sht30.SharedState.new.record exZeroReading).zeros = 1 ∧
      (Sht30.SharedState.new.record exZeroReading).humidities ≠
        Sht30.SharedState.new.humidities ∧
      (Sht30.SharedState.new.record exZeroReading).humidities.count = 1 := by
  refine ⟨?_, by decide, by decide⟩
  simp [Sht30.SharedState.record, Sht30.SharedState.new, exZeroReading]

/-- C8 amended: out-of-range handling differs per sensor.  For the INA237, a
bus voltage below the 10 V threshold only bumps `zeros` and is not recorded;
for the SHT30, a zero temperature or humidity bumps `zeros` but the readings
are still recorded into both `SampleSet`s (and `successes` is bumped).  In
both cases `recoverable_errors`, `timeouts` and `resets` are untouched. -/
theorem zero_reading_handling_amended :
    (∀ (st : Ina237.SharedState) (v : F), v < 10 →
        (st.record_bus_voltage v).zeros = st.zeros + 1 ∧
          (st.record_bus_voltage v).bus_voltages = st.bus_voltages ∧
          (st.record_bus_voltage v).recoverable_errors = st.recoverable_errors ∧
          (st.record_bus_voltage v).timeouts = st.timeouts ∧
          (st.record_bus_voltage v).resets = st.resets) ∧
      ∀ (st : Sht30.SharedState) (r : Sht30.Reading),
        r.humidity = 0 ∨ r.temperature = 0 →
          (st.record r).zeros = st.zeros + 1 ∧
            (st.record r).humidities = st.humidities.record r.humidity ∧
            (st.record r).temperatures = st.temperatures.record r.temperature ∧
            (st.record r).successes = st.successes + 1 ∧
            (st.record r).recoverable_errors = st.recoverable_errors ∧
            (st.record r).timeouts = st.timeouts ∧
            (st.record r).resets = st.resets := by
  constructor
  · intro st v hv
    refine ⟨?_, ?_, ?_, ?_, ?_⟩ <;> simp [Ina237.SharedState.record_bus_voltage, hv]
  · intro st r hr
    refine ⟨?_, ?_, ?_, ?_, ?_, ?_, ?_⟩ <;> simp [Sht30.SharedState.record, hr]

/-- Witness for C8 amended: a 5 V bus reading and the zero-humidity SHT30
reading. -/
theorem zero_reading_handling_amended_witness :
    ((5 : F) < 10 ∧ (Ina237.SharedState.new.record_bus_voltage 5).zeros =
        Ina237.SharedState.new.zeros + 1) ∧
      (exZeroReading.humidity = 0 ∨ exZeroReading.temperature = 0) ∧
        (Sht30.SharedState.new.record exZeroReading).humidities =
          Sht30.SharedState.new.humidities.record exZeroReading.humidity :=
  ⟨⟨by decide, ((zero_reading_handling_amended).1 Ina237.SharedState.new 5 (by decide)).1⟩,
    by decide,
    ((zero_reading_handling_amended).2 Sht30.SharedState.new exZeroReading
      (by decide)).2.1⟩

end PicoClimate

namespace PicoClimate.Http

/-- C9 counterexample: in the trace of `PicoClimateMetrics::write_chunks` the
family writes do not happen outside the critical section — the handler locks
the shared state before the first write and the guard lives until the method
returns, so the claim that the mutex is held only for the snapshot fails
already on the all-success branch. -/
theorem metrics_lock_scope_counterexample :
    writesOutsideLock (picoClimateTrace true true true true) 0 = false := by
  rfl

/-- C9 amended: on every branch combination the handler holds the shared-state
mutex across the entire render — every family write in the trace occurs at
positive lock depth.  (Mutual exclusion still serialises the polling task's
`record_*` critical sections with the handler, so no torn state is observed;
but the lock is not released after a snapshot: src/http.rs does not even call
`snapshot()`, it renders directly from the locked state.) -/
theorem metrics_lock_scope_amended (adcOk sht30Ok hasIna inaOk : Bool) :
    writesUnderLock (picoClimateTrace adcOk sht30Ok hasIna inaOk) 0 = true := by
  cases adcOk <;> cases sht30Ok <;> cases hasIna <;> cases inaOk <;> rfl

end PicoClimate.Http

namespace PicoClimate

/-- C10: `snapshot()` on the INA237 state is destructive for `current` only:
when both voltage sample sets are nonempty, two consecutive snapshots succeed,
the second `Output` has `current = 0` (the `AverageSet` was reset by the first
call) while its medians and counters equal those of the first `Output`. -/
theorem ina237_snapshot_destructive_current_only (st : Ina237.SharedState)
    (hb : st.bus_voltages.median.isSome = true)
    (hs : st.shunt_voltages.median.isSome = true) :
    ∃ o1 st1 o2 st2,
      st.snapshot = some (o1, st1) ∧ st1.snapshot = some (o2, st2) ∧
        o2.current = 0 ∧
        o2.bus_voltage = o1.bus_voltage ∧ o2.shunt_voltage = o1.shunt_voltage ∧
        o2.successes = o1.successes ∧ o2.timeouts = o1.timeouts ∧
        o2.zeros = o1.zeros ∧ o2.recoverable_errors = o1.recoverable_errors ∧
        o2.resets = o1.resets := by
  obtain ⟨bv, hbv⟩ := Option.isSome_iff_exists.mp hb
  obtain ⟨sv, hsv⟩ := Option.isSome_iff_exists.mp hs
  have e1 : st.snapshot = some
      ({ bus_voltage := bv, shunt_voltage := sv, current := (st.currents.avg).1,
         successes := st.successes, timeouts := st.timeouts, zeros := st.zeros,
         recoverable_errors := st.recoverable_errors, resets := st.resets },
       { st with currents := (st.currents.avg).2 }) := by
    unfold Ina237.SharedState.snapshot
    rw [hbv, hsv]
  have e2 : ({ st with currents := (st.currents.avg).2 } : Ina237.SharedState).snapshot =
      some
        ({ bus_voltage := bv, shunt_voltage := sv,
           current := (((st.currents.avg).2).avg).1,
           successes := st.successes, timeouts := st.timeouts, zeros := st.zeros,
           recoverable_errors := st.recoverable_errors, resets := st.resets },
         { st with currents := (((st.currents.avg).2).avg).2 }) := by
    unfold Ina237.SharedState.snapshot
    rw [show ({ st with currents := (st.currents.avg).2 } :
          Ina237.SharedState).bus_voltages.median = some bv from hbv,
        show ({ st with currents := (st.currents.avg).2 } :
          Ina237.SharedState).shunt_voltages.median = some sv from hsv]
  have havg : (((st.currents.avg).2).avg).1 = 0 := by
    by_cases h : st.currents.count = 0 <;> simp [AverageSet.avg, h]
  exact ⟨_, _, _, _, e1, e2, havg, rfl, rfl, rfl, rfl, rfl, rfl, rfl⟩

end PicoClimate

namespace PicoClimate

/-- Shifting a successor through a modulus. -/
theorem succ_mod_shift (K n : ℕ) : (n + 1) % K = (n % K + 1) % K :=
  ((Nat.mod_modEq n K).add_right 1).symm

/-- One `record` step on a full ring buffer in rotation form: writing slot `r`
replaces the oldest live entry, yielding the shifted window in rotation form. -/
theorem rotate_set_oldest {K : ℕ} (w v : F) (ws : List F) (r : ℕ)
    (hlen : ws.length + 1 = K) (hr : r < K) :
    ((w :: ws).rotate ((K - r) % K)).set r v =
      (ws ++ [v]).rotate ((K - (r + 1) % K) % K) := by
  have hK : 0 < K := by omega
  rcases Nat.eq_zero_or_pos r with rfl | hrpos
  · rw [Nat.sub_zero, Nat.mod_self, List.rotate_zero, List.set_cons_zero]
    rcases Nat.lt_or_ge 1 K with hK2 | hK1
    · have h1 : 1 % K = 1 := Nat.mod_eq_of_lt hK2
      have h2 : (K - 1) % K = K - 1 := Nat.mod_eq_of_lt (by omega)
      rw [h1, h2,
        List.rotate_eq_drop_append_take (by simp; omega : K - 1 ≤ (ws ++ [v]).length)]
      have hidx : K - 1 = ws.length := by omega
      rw [hidx, List.drop_left, List.take_left, List.singleton_append]
    · have hK1e : K = 1 := by omega
      have hws : ws = [] := List.length_eq_zero.mp (by omega)
      subst hws
      subst hK1e
      rfl
  · have h3 : (K - r) % K = K - r := Nat.mod_eq_of_lt (by omega)
    rw [h3, List.rotate_eq_drop_append_take (by simp; omega : K - r ≤ (w :: ws).length)]
    have hsub : K - r = (K - r - 1) + 1 := by omega
    rw [hsub, List.drop_succ_cons, List.take_succ_cons, List.set_append]
    have hdlen : (ws.drop (K - r - 1)).length = r := by
      rw [List.length_drop]; omega
    rw [if_neg (by omega : ¬ r < (ws.drop (K - r - 1)).length), hdlen, Nat.sub_self,
      List.set_cons_zero]
    rcases eq_or_lt_of_le (by omega : r + 1 ≤ K) with heq | hlt
    · have h4 : (K - (r + 1) % K) % K = 0 := by
        rw [heq, Nat.mod_self, Nat.sub_zero, Nat.mod_self]
      have h5 : K - r - 1 = 0 := by omega
      rw [h4, List.rotate_zero, h5, List.drop_zero, List.take_zero]
    · have h6 : (r + 1) % K = r + 1 := Nat.mod_eq_of_lt hlt
      have h7 : (K - (r + 1)) % K = K - (r + 1) := Nat.mod_eq_of_lt (by omega)
      rw [h6, h7,
        List.rotate_eq_drop_append_take (by simp; omega : K - (r + 1) ≤ (ws ++ [v]).length)]
      have h8 : K - (r + 1) = K - r - 1 := by omega
      rw [h8,
        List.drop_append_of_le_length (by omega : K - r - 1 ≤ ws.length),
        List.take_append_of_le_length (by omega : K - r - 1 ≤ ws.length),
        List.append_assoc, List.singleton_append]

end PicoClimate

namespace PicoClimate

/-- Closed form for the buffer after a sequence of `record` calls from a fresh
`SampleSet`: while at most `K` samples were recorded the buffer is the sequence
padded with the initial zeros; afterwards it is the window of the last `K`
samples in rotation form. -/
theorem SampleSet.recordSeq_closed (K : ℕ) (hK : 0 < K) (vs : List F) :
    (SampleSet.recordSeq K vs).count = vs.length ∧
      (SampleSet.recordSeq K vs).samples =
        (if vs.length ≤ K then vs ++ List.replicate (K - vs.length) 0
         else (vs.drop (vs.length - K)).rotate ((K - vs.length % K) % K)) := by
  induction vs using List.reverseRecOn with
  | nil => simp [SampleSet.recordSeq, SampleSet.new]
  | append_singleton ws v ih =>
    obtain ⟨ihc, ihs⟩ := ih
    have hstep : SampleSet.recordSeq K (ws ++ [v]) = (SampleSet.recordSeq K ws).record v := by
      simp [SampleSet.recordSeq, List.foldl_append]
    have hlen : (ws ++ [v]).length = ws.length + 1 := by simp
    constructor
    · rw [hstep, SampleSet.record, hlen, ihc]
    · rw [hstep, hlen]
      show (SampleSet.recordSeq K ws).samples.set ((SampleSet.recordSeq K ws).count % K) v = _
      rw [ihc, ihs]
      by_cases hle : ws.length + 1 ≤ K
      · rw [if_pos (by omega : ws.length ≤ K), if_pos hle,
          Nat.mod_eq_of_lt (by omega : ws.length < K), List.set_append,
          if_neg (by omega : ¬ ws.length < ws.length), Nat.sub_self,
          show K - ws.length = (K - (ws.length + 1)) + 1 by omega,
          List.replicate_succ, List.set_cons_zero, List.append_assoc,
          List.singleton_append]
      · rw [if_neg hle]
        have hprev : (if ws.length ≤ K then ws ++ List.replicate (K - ws.length) 0
              else (ws.drop (ws.length - K)).rotate ((K - ws.length % K) % K)) =
            (ws.drop (ws.length - K)).rotate ((K - ws.length % K) % K) := by
          by_cases hKe : ws.length ≤ K
          · have hnK : ws.length = K := by omega
            rw [if_pos hKe, hnK, Nat.sub_self, List.replicate_zero, List.append_nil,
              List.drop_zero, Nat.mod_self, Nat.sub_zero, Nat.mod_self, List.rotate_zero]
          · rw [if_neg hKe]
        rw [hprev]
        have hWlen : (ws.drop (ws.length - K)).length = K := by
          rw [List.length_drop]; omega
        rcases hW : ws.drop (ws.length - K) with _ | ⟨w, tail⟩
        · rw [hW] at hWlen; simp at hWlen; omega
        · have htlen : tail.length + 1 = K := by rw [hW] at hWlen; simpa using hWlen
          rw [rotate_set_oldest w v tail (ws.length % K) htlen
            (Nat.mod_lt _ hK)]
          have htail : (ws ++ [v]).drop (ws.length + 1 - K) = tail ++ [v] := by
            rw [List.drop_append_of_le_length (by omega : ws.length + 1 - K ≤ ws.length)]
            have h9 : ws.drop (ws.length + 1 - K) = tail := by
              have h10 := congrArg (List.drop 1) hW
              rw [List.drop_drop, List.drop_succ_cons, List.drop_zero] at h10
              rw [show ws.length + 1 - K = ws.length - K + 1 by omega, h10]
            rw [h9]
          rw [htail, succ_mod_shift K ws.length]

/-- C1: after any nonempty sequence of `record` calls into a `SampleSet<K>`
(`0 < K`), `median()` returns the element at index `len / 2` (the upper
middle) of the ascending sort of the multiset of the most recently recorded
`min(write_count, K)` samples — once more than `K` samples were recorded,
only the last `K` contribute, the oldest having been overwritten at slot
`write_count mod K`. -/
theorem sampleSet_median_ring_buffer (K : ℕ) (vs : List F) (hK : 0 < K)
    (hvs : vs ≠ []) :
    (SampleSet.recordSeq K vs).median =
      some ((List.insertionSort (fun a b => a ≤ b)
        (vs.drop (vs.length - min vs.length K))).getD (min vs.length K / 2) 0) := by
  obtain ⟨hc, hs⟩ := SampleSet.recordSeq_closed K hK vs
  have hn : 0 < vs.length := List.length_pos.mpr hvs
  have hm : 0 < min vs.length K := lt_min hn hK
  have hcount : (SampleSet.recordSeq K vs).sampleCount = min vs.length K := by
    rw [SampleSet.sampleCount, hc]
    by_cases h : vs.length ≤ K
    · rw [if_neg (by omega), Nat.min_def, if_pos h]
    · rw [if_pos (by omega), Nat.min_def, if_neg h]
  have hperm : ((SampleSet.recordSeq K vs).samples.take
      ((SampleSet.recordSeq K vs).sampleCount)).Perm
        (vs.drop (vs.length - min vs.length K)) := by
    rw [hcount, hs]
    by_cases h : vs.length ≤ K
    · rw [if_pos h, min_eq_left h, Nat.sub_self, List.drop_zero, List.take_left]
    · rw [if_neg h, min_eq_right (by omega : K ≤ vs.length)]
      have hlenr : ((vs.drop (vs.length - K)).rotate ((K - vs.length % K) % K)).length
          = K := by
        rw [List.length_rotate, List.length_drop]; omega
      rw [List.take_of_length_le (le_of_eq hlenr)]
      exact List.rotate_perm _ _
  have hsorteq : List.insertionSort (fun a b => a ≤ b)
        ((SampleSet.recordSeq K vs).samples.take ((SampleSet.recordSeq K vs).sampleCount)) =
      List.insertionSort (fun a b => a ≤ b) (vs.drop (vs.length - min vs.length K)) := by
    exact @List.eq_of_perm_of_sorted F (fun a b => a ≤ b) inferInstance _ _
      (((List.perm_insertionSort _ _).trans hperm).trans
        (List.perm_insertionSort _ _).symm)
      (List.sorted_insertionSort _ _) (List.sorted_insertionSort _ _)
  have hlensort : (List.insertionSort (fun a b => a ≤ b)
      (vs.drop (vs.length - min vs.length K))).length = min vs.length K := by
    rw [(List.perm_insertionSort _ _).length_eq, List.length_drop]; omega
  have hidx : min vs.length K / 2 < (List.insertionSort (fun a b => a ≤ b)
      (vs.drop (vs.length - min vs.length K))).length := by
    rw [hlensort]
    exact Nat.div_lt_self hm (by omega)
  simp only [SampleSet.median]
  rw [hsorteq, hlensort, List.get?_eq_get hidx, List.getD_eq_get?, List.get?_eq_get hidx]
  rfl

/-- Witness for C1: capacity 3 with four recorded samples; the live window is
the last three samples (1, 4, 2) and the median is the upper middle 2. -/
theorem sampleSet_median_ring_buffer_witness :
    (SampleSet.recordSeq 3 [5, 1, 4, 2]).median = some 2 := by
  have h := sampleSet_median_ring_buffer 3 [5, 1, 4, 2] (by decide) (by decide)
  rw [h]
  decide

end PicoClimate

namespace PicoClimate

/-- Witness for C10: a state with one 12 V bus sample, one shunt sample and
one current sample; the second snapshot keeps the medians and counters and
zeroes the current. -/
theorem ina237_snapshot_destructive_current_only_witness :
    exInaState.bus_voltages.median.isSome = true ∧
      exInaState.shunt_voltages.median.isSome = true ∧
      (∃ o1 st1 o2 st2,
        exInaState.snapshot = some (o1, st1) ∧ st1.snapshot = some (o2, st2) ∧
          o2.current = 0 ∧
          o2.bus_voltage = o1.bus_voltage ∧ o2.shunt_voltage = o1.shunt_voltage ∧
          o2.successes = o1.successes ∧ o2.timeouts = o1.timeouts ∧
          o2.zeros = o1.zeros ∧ o2.recoverable_errors = o1.recoverable_errors ∧
          o2.resets = o1.resets) :=
  ⟨by decide, by decide,
    ina237_snapshot_destructive_current_only exInaState (by decide) (by decide)⟩

end PicoClimate
